import Mathlib

/-!
Shallow embedding of the core of the `horitaku/duckdns` updater:
the DuckDNS update client (`internal/duckdns/client.go`, whose complete
version — with the OK/KO response parsing and `UpdateWithRetry` — appears
in the repository snapshot as `src/unnamed/part_004`), the IP fetchers
(`internal/ip/fetcher.go`) and the scheduler (`internal/scheduler/scheduler.go`).

HTTP traffic is modelled by an explicit environment: a function from the
attempt number (for the update client) or the source index (for the failover
fetcher) to the observed outcome of the corresponding `http.Client.Do` call.
The Go `context.Context` is modelled by explicit boolean schedules saying at
which suspension points the cancellation signal is observed.
-/

/-- Model of Go's `strings.TrimSpace`: remove whitespace characters from
both ends of the string. Defined by explicit list recursion so that the
kernel can evaluate it on concrete inputs. -/
def trimSpace (s : String) : String :=
  ⟨((s.data.dropWhile Char.isWhitespace).reverse.dropWhile Char.isWhitespace).reverse⟩

/-- An HTTP response as observed by the clients: status code and body.
Bodies whose read fails are folded into the transport-failure case of
`DoResult`, since nothing in the verified claims distinguishes them. -/
structure HTTPResponse where
  statusCode : Nat
  body : String
deriving Repr, DecidableEq

/-- Outcome of a single `httpClient.Do` call (plus the body read):
either a response with a fully read body, or a transport error message. -/
inductive DoResult where
  | success (resp : HTTPResponse)
  | failure (msg : String)
deriving Repr, DecidableEq

/-- Errors returned by `Client.Update` (client.go, complete version lines
117-170): request execution failure, non-200 status, and the non-"OK"
response body failure which carries the trimmed response text. -/
inductive UpdateError where
  | requestFailed (msg : String)
  | statusError (code : Nat)
  | updateFailed (response : String)
deriving Repr, DecidableEq

/-- Model of `Client.Update` (client.go lines 100-171 of the complete
version): run the HTTP GET; on transport failure return a request error;
on a non-200 status return a status error; otherwise trim the body and
succeed exactly when it is the literal "OK", returning the trimmed
response text inside the error otherwise. -/
def Update (doResult : DoResult) : Except UpdateError String :=
  match doResult with
  | .failure msg => .error (.requestFailed msg)
  | .success resp =>
    if resp.statusCode ≠ 200 then
      .error (.statusError resp.statusCode)
    else
      let response := trimSpace resp.body
      if response = "OK" then
        .ok response
      else
        .error (.updateFailed response)

/-- C1: for an `Update` call that receives an HTTP 200 response, the call
succeeds if and only if the trimmed response body is exactly "OK"; any
other trimmed body (including "KO") fails with an error carrying the
response text, and a non-200 status produces a failure of a distinct kind
(a different error constructor) from a non-OK body. -/
theorem C1_update_ok_iff :
    (∀ resp : HTTPResponse, resp.statusCode = 200 →
      (((∃ s, Update (.success resp) = .ok s) ↔ trimSpace resp.body = "OK") ∧
       (trimSpace resp.body ≠ "OK" →
         Update (.success resp) = .error (.updateFailed (trimSpace resp.body))))) ∧
    (∀ resp : HTTPResponse, resp.statusCode ≠ 200 →
      Update (.success resp) = .error (.statusError resp.statusCode)) ∧
    (∀ body code, UpdateError.updateFailed body ≠ UpdateError.statusError code) := by
  refine ⟨fun resp h200 => ?_, fun resp hne => ?_, fun body code h => ?_⟩
  · constructor
    · constructor
      · rintro ⟨s, hs⟩
        by_contra hko
        simp [Update, h200, hko] at hs
      · intro hok
        exact ⟨"OK", by simp [Update, h200, hok]⟩
    · intro hko
      simp [Update, h200, hko]
  · simp [Update, hne]
  · cases h

/-- Witness for C1 at concrete inputs: a 200 response with body " KO\n"
fails with the trimmed text "KO", and a 500 response is a status error. -/
theorem C1_update_ok_iff_witness :
    Update (.success ⟨200, " KO\n"⟩) = .error (.updateFailed "KO") ∧
    Update (.success ⟨500, "OK"⟩) = .error (.statusError 500) := by
  constructor
  · have h := (C1_update_ok_iff.1 ⟨200, " KO\n"⟩ rfl).2 (by decide)
    have htrim : trimSpace " KO\n" = "KO" := by decide
    simpa [htrim] using h
  · exact C1_update_ok_iff.2.1 ⟨500, "OK"⟩ (by decide)

/-- Retry configuration of the client (client.go lines 36-39). Go's `int`
and `time.Duration` (an `int64` of nanoseconds) are modelled as `Int`. -/
structure RetryConfig where
  MaxRetries : Int
  Backoff : List Int
deriving Repr, DecidableEq

/-- Static configuration held by the DuckDNS client (client.go lines
43-47); the HTTP transport itself lives in the environment. -/
structure Client where
  baseURL : String
  retry : RetryConfig
deriving Repr, DecidableEq

/-- Base URL constant `defaultBaseURL` (client.go line 17). -/
def defaultBaseURL : String := "https://www.duckdns.org/update"

/-- Default maximum retry count `DefaultMaxRetries` (client.go line 23). -/
def DefaultMaxRetries : Int := 3

/-- One second in nanoseconds, the unit of Go's `time.Duration`. -/
def oneSecond : Int := 1000000000

/-- Default backoff schedule `DefaultBackoff` = [1s, 2s, 4s] (client.go line 26). -/
def DefaultBackoff : List Int := [1 * oneSecond, 2 * oneSecond, 4 * oneSecond]

/-- Model of `NewClient` (client.go lines 53-62). -/
def NewClient : Client :=
  { baseURL := defaultBaseURL
    retry := { MaxRetries := DefaultMaxRetries, Backoff := DefaultBackoff } }

/-- Model of `NewClientWithOptions` (client.go lines 66-86): a zero-value
base URL, a non-positive `MaxRetries` and an empty `Backoff` list are each
replaced by their defaults. The `httpClient` argument only selects the
transport and has no counterpart in this pure model. -/
def NewClientWithOptions (baseURL : String) (retry : RetryConfig) : Client :=
  let baseURL := if baseURL = "" then defaultBaseURL else baseURL
  let retry : RetryConfig :=
    { MaxRetries := if retry.MaxRetries ≤ 0 then DefaultMaxRetries else retry.MaxRetries
      Backoff := if retry.Backoff.length = 0 then DefaultBackoff else retry.Backoff }
  { baseURL := baseURL, retry := retry }

/-- Environment of one `UpdateWithRetry` call: the outcome of the HTTP
request of every attempt (1-indexed), and the two cancellation schedules —
whether `ctx.Done()` is already observable in the non-blocking select at
the top of attempt `k`, and whether the cancellation signal fires during
the backoff sleep that follows a failed attempt `k`. -/
structure Env where
  doResult : Nat → DoResult
  cancelledBefore : Nat → Bool
  cancelledDuringBackoff : Nat → Bool

/-- Errors produced by `UpdateWithRetry` (client.go lines 186-274):
cancellation observed before an attempt, cancellation firing during a
backoff sleep, and exhaustion of all attempts (carrying the attempt count
and the last underlying error, `nil` when the loop never ran). The last
constructor models the Go runtime panic that a negative slice index in
`c.retry.Backoff[backoffIndex]` would raise when the backoff list is
empty; it is proved unreachable for constructed clients. -/
inductive RetryError where
  | cancelled (attempt : Nat)
  | cancelledDuringBackoff (attempt : Nat)
  | allAttemptsFailed (attempts : Int) (lastErr : Option UpdateError)
  | backoffIndexOutOfRange (attempt : Nat)
deriving Repr, DecidableEq

/-- Clamped backoff index from client.go lines 239-242: `attempt - 1`,
replaced by `len(Backoff) - 1` when it is not below the list length (both
computed in Go `int` arithmetic, hence `Int`). -/
def clampedBackoffIndex (backoff : List Int) (attempt : Nat) : Int :=
  if ((attempt : Int) - 1) ≥ (backoff.length : Int) then (backoff.length : Int) - 1
  else (attempt : Int) - 1

/-- Model of the backoff lookup `c.retry.Backoff[backoffIndex]` (client.go
line 243): `none` models the slice-index panic on an out-of-range index,
which after clamping occurs exactly when the backoff list is empty. -/
def backoffLookup (backoff : List Int) (attempt : Nat) : Option Int :=
  if h : 0 ≤ clampedBackoffIndex backoff attempt ∧
      (clampedBackoffIndex backoff attempt).toNat < backoff.length then
    some (backoff.get ⟨(clampedBackoffIndex backoff attempt).toNat, h.2⟩)
  else
    none

/-- Model of the attempt loop of `UpdateWithRetry` (client.go lines
190-264). `fuel` is the number of attempts still allowed including the
current one (so the Go loop bound `attempt <= maxAttempts` corresponds to
`fuel = 0` at exit), `attempt` is the 1-based attempt counter used for the
environment and the backoff index, `maxAttempts` is the Go `int` value
`c.retry.MaxRetries + 1` reported in the exhaustion error, and `lastErr`
is the last recorded attempt error. The second component of the result is
the number of `Update` calls actually performed from this point on. -/
def retryLoop (c : Client) (env : Env) (maxAttempts : Int) :
    Nat → Nat → Option UpdateError → Except RetryError String × Nat
  | _attempt, 0, lastErr => (.error (.allAttemptsFailed maxAttempts lastErr), 0)
  | attempt, fuel + 1, _lastErr =>
    if env.cancelledBefore attempt then
      (.error (.cancelled attempt), 0)
    else
      match Update (env.doResult attempt) with
      | .ok response => (.ok response, 1)
      | .error e =>
        if fuel = 0 then
          (.error (.allAttemptsFailed maxAttempts (some e)), 1)
        else
          match backoffLookup c.retry.Backoff attempt with
          | none => (.error (.backoffIndexOutOfRange attempt), 1)
          | some _duration =>
            if env.cancelledDuringBackoff attempt then
              (.error (.cancelledDuringBackoff attempt), 1)
            else
              let r := retryLoop c env maxAttempts (attempt + 1) fuel (some e)
              (r.1, r.2 + 1)

/-- Model of `UpdateWithRetry` (client.go lines 186-274): run the attempt
loop with `maxAttempts = c.retry.MaxRetries + 1`, starting at attempt 1
with no recorded error. Returns the outcome together with the number of
`Update` calls performed. -/
def UpdateWithRetry (c : Client) (env : Env) : Except RetryError String × Nat :=
  retryLoop c env (c.retry.MaxRetries + 1) 1 (c.retry.MaxRetries + 1).toNat none

/-- Helper: for a non-empty backoff list and a 1-based attempt number the
clamped backoff index is in range, so the lookup returns a value. -/
theorem backoffLookup_isSome (backoff : List Int) (attempt : Nat)
    (hbo : backoff ≠ []) (ha : 1 ≤ attempt) :
    ∃ d, backoffLookup backoff attempt = some d := by
  have hlen : 0 < backoff.length := List.length_pos.mpr hbo
  have hcond : 0 ≤ clampedBackoffIndex backoff attempt ∧
      (clampedBackoffIndex backoff attempt).toNat < backoff.length := by
    unfold clampedBackoffIndex
    split <;> omega
  exact ⟨_, by rw [backoffLookup, dif_pos hcond]⟩

/-- Helper: when every attempt fails, no cancellation is ever observed and
the backoff list is non-empty, the attempt loop consumes all its fuel,
makes one `Update` call per fuel unit and ends in the exhaustion error
recording the error of the last attempt. -/
theorem retryLoop_all_fail (c : Client) (env : Env) (maxAttempts : Int)
    (errs : Nat → UpdateError)
    (hfail : ∀ k, Update (env.doResult k) = .error (errs k))
    (hnc : ∀ k, env.cancelledBefore k = false)
    (hnb : ∀ k, env.cancelledDuringBackoff k = false)
    (hbo : c.retry.Backoff ≠ []) :
    ∀ fuel attempt lastErr, 1 ≤ attempt → 1 ≤ fuel →
      retryLoop c env maxAttempts attempt fuel lastErr =
        (.error (.allAttemptsFailed maxAttempts (some (errs (attempt + fuel - 1)))), fuel) := by
  intro fuel
  induction fuel with
  | zero => intro attempt lastErr _ h1; omega
  | succ f ih =>
    intro attempt lastErr ha _
    rw [retryLoop]
    rw [hnc attempt, hfail attempt]
    simp only [Bool.false_eq_true, if_false]
    by_cases hf : f = 0
    · subst hf
      have h1 : attempt + 1 - 1 = attempt := by omega
      simp [h1]
    · rw [if_neg hf]
      obtain ⟨d, hd⟩ := backoffLookup_isSome c.retry.Backoff attempt hbo ha
      rw [hd]
      rw [hnb attempt]
      simp only [Bool.false_eq_true, if_false]
      rw [ih (attempt + 1) (some (errs attempt)) (by omega) (by omega)]
      have : attempt + 1 + f - 1 = attempt + (f + 1) - 1 := by omega
      rw [this]

/-- C4: for a retry configuration with a non-negative max retry count m
and a non-empty backoff list, if every single-update attempt fails and the
context is never cancelled, `UpdateWithRetry` performs exactly 1 + m
attempts and then fails with the aggregate error that carries the attempt
count and the last underlying error. -/
theorem C4_retry_exhaustion (c : Client) (env : Env) (errs : Nat → UpdateError)
    (hm : 0 ≤ c.retry.MaxRetries) (hbo : c.retry.Backoff ≠ [])
    (hfail : ∀ k, Update (env.doResult k) = .error (errs k))
    (hnc : ∀ k, env.cancelledBefore k = false)
    (hnb : ∀ k, env.cancelledDuringBackoff k = false) :
    (UpdateWithRetry c env).2 = (c.retry.MaxRetries + 1).toNat ∧
    (UpdateWithRetry c env).1 =
      .error (.allAttemptsFailed (c.retry.MaxRetries + 1)
        (some (errs (c.retry.MaxRetries + 1).toNat))) := by
  have hfuel : 1 ≤ (c.retry.MaxRetries + 1).toNat := by omega
  have h := retryLoop_all_fail c env (c.retry.MaxRetries + 1) errs hfail hnc hnb hbo
    (c.retry.MaxRetries + 1).toNat 1 none (le_refl 1) hfuel
  have harith : 1 + (c.retry.MaxRetries + 1).toNat - 1 = (c.retry.MaxRetries + 1).toNat := by
    omega
  rw [harith] at h
  rw [UpdateWithRetry, h]
  exact ⟨rfl, rfl⟩

/-- Witness for C4: a client built with maxRetries = 2 and backoff
[10ms, 10ms] against a server that always answers HTTP 500 makes exactly
3 attempts and fails with the aggregate error recording 3 attempts. -/
theorem C4_retry_exhaustion_witness :
    (UpdateWithRetry (NewClientWithOptions "" ⟨2, [10000000, 10000000]⟩)
      ⟨fun _ => .success ⟨500, ""⟩, fun _ => false, fun _ => false⟩).2 = 3 ∧
    (UpdateWithRetry (NewClientWithOptions "" ⟨2, [10000000, 10000000]⟩)
      ⟨fun _ => .success ⟨500, ""⟩, fun _ => false, fun _ => false⟩).1 =
      .error (.allAttemptsFailed 3 (some (.statusError 500))) := by
  have h := C4_retry_exhaustion (NewClientWithOptions "" ⟨2, [10000000, 10000000]⟩)
    ⟨fun _ => .success ⟨500, ""⟩, fun _ => false, fun _ => false⟩
    (fun _ => .statusError 500) (by decide) (by decide)
    (fun k => rfl) (fun k => rfl) (fun k => rfl)
  simpa using h

/-- Helper: when attempts up to `j` fail, cancellation is never observed at
the top of an attempt, and the cancellation signal first fires during the
backoff sleep after attempt `j`, the loop stops there with the distinct
backoff-cancellation error, after `j - attempt + 1` further `Update`
calls and without starting attempt `j + 1`. -/
theorem retryLoop_cancel_in_backoff (c : Client) (env : Env) (maxAttempts : Int)
    (errs : Nat → UpdateError) (j : Nat)
    (hfail : ∀ k, k ≤ j → Update (env.doResult k) = .error (errs k))
    (hnc : ∀ k, env.cancelledBefore k = false)
    (hcb : env.cancelledDuringBackoff j = true)
    (hcblt : ∀ k, k < j → env.cancelledDuringBackoff k = false)
    (hbo : c.retry.Backoff ≠ []) :
    ∀ fuel attempt lastErr, 1 ≤ attempt → attempt ≤ j → j + 2 ≤ attempt + fuel →
      retryLoop c env maxAttempts attempt fuel lastErr =
        (.error (.cancelledDuringBackoff j), j - attempt + 1) := by
  intro fuel
  induction fuel with
  | zero => intro attempt lastErr _ haj hbig; omega
  | succ f ih =>
    intro attempt lastErr ha haj hbig
    rw [retryLoop]
    rw [hnc attempt, hfail attempt haj]
    simp only [Bool.false_eq_true, if_false]
    have hf : f ≠ 0 := by omega
    rw [if_neg hf]
    obtain ⟨d, hd⟩ := backoffLookup_isSome c.retry.Backoff attempt hbo ha
    rw [hd]
    by_cases haeq : attempt = j
    · subst haeq
      rw [hcb]
      simp
    · have haltj : attempt < j := by omega
      rw [hcblt attempt haltj]
      simp only [Bool.false_eq_true, if_false]
      rw [ih (attempt + 1) (some (errs attempt)) (by omega) (by omega) (by omega)]
      have : j - (attempt + 1) + 1 + 1 = j - attempt + 1 := by omega
      rw [this]

/-- C5: if attempts 1..j all fail, the context is not cancelled before any
attempt, and the cancellation signal first fires during the backoff sleep
after attempt j (which exists because j is below the attempt bound), then
`UpdateWithRetry` aborts with the backoff-cancellation error after exactly
j attempts — no further attempt is started — and that error is a different
constructor from the all-retries-exhausted aggregate error. -/
theorem C5_cancel_during_backoff (c : Client) (env : Env) (errs : Nat → UpdateError)
    (j : Nat) (hj1 : 1 ≤ j) (hjm : j + 1 ≤ (c.retry.MaxRetries + 1).toNat)
    (hbo : c.retry.Backoff ≠ [])
    (hfail : ∀ k, k ≤ j → Update (env.doResult k) = .error (errs k))
    (hnc : ∀ k, env.cancelledBefore k = false)
    (hcb : env.cancelledDuringBackoff j = true)
    (hcblt : ∀ k, k < j → env.cancelledDuringBackoff k = false) :
    UpdateWithRetry c env = (.error (.cancelledDuringBackoff j), j) ∧
    (∀ a l, (RetryError.cancelledDuringBackoff j) ≠ .allAttemptsFailed a l) := by
  constructor
  · have h := retryLoop_cancel_in_backoff c env (c.retry.MaxRetries + 1) errs j
      hfail hnc hcb hcblt hbo (c.retry.MaxRetries + 1).toNat 1 none (le_refl 1) hj1 (by omega)
    have harith : j - 1 + 1 = j := by omega
    rw [UpdateWithRetry, h, harith]
  · intro a l h
    cases h

/-- Witness for C5: the default client (maxRetries 3) against a server that
always answers HTTP 500, with the cancellation signal firing during the
first backoff sleep, stops after exactly 1 attempt with the
backoff-cancellation error. -/
theorem C5_cancel_during_backoff_witness :
    UpdateWithRetry NewClient
      ⟨fun _ => .success ⟨500, ""⟩, fun _ => false, fun k => k == 1⟩ =
      (.error (.cancelledDuringBackoff 1), 1) := by
  exact (C5_cancel_during_backoff NewClient
    ⟨fun _ => .success ⟨500, ""⟩, fun _ => false, fun k => k == 1⟩
    (fun _ => .statusError 500) 1 (le_refl 1) (by decide) (by decide)
    (fun k _ => rfl) (fun k => rfl) rfl (by decide)).1

/-- Helper: with a non-empty backoff list the attempt loop never produces
the out-of-range outcome, whatever the environment does. -/
theorem retryLoop_no_panic (c : Client) (env : Env) (maxAttempts : Int)
    (hbo : c.retry.Backoff ≠ []) :
    ∀ fuel attempt lastErr, 1 ≤ attempt → ∀ k,
      (retryLoop c env maxAttempts attempt fuel lastErr).1 ≠
        .error (.backoffIndexOutOfRange k) := by
  intro fuel
  induction fuel with
  | zero => intro attempt lastErr _ k h; cases h
  | succ f ih =>
    intro attempt lastErr ha k
    rw [retryLoop]
    by_cases hc : env.cancelledBefore attempt
    · simp [hc]
    · simp only [hc, Bool.false_eq_true, if_false]
      cases hu : Update (env.doResult attempt) with
      | ok response => simp
      | error e =>
        obtain ⟨d, hd⟩ := backoffLookup_isSome c.retry.Backoff attempt hbo ha
        by_cases hf : f = 0
        · simp [hf]
        · by_cases hcb : env.cancelledDuringBackoff attempt
          · simp [hf, hd, hcb]
          · simp only [hf, hd, hcb, Bool.false_eq_true, if_false]
            exact ih (attempt + 1) (some e) (by omega) k

/-- C9: every client produced by `NewClient` or `NewClientWithOptions` has
MaxRetries at least 1 and a non-empty backoff list (a non-positive
MaxRetries argument and an empty backoff argument are replaced by the
defaults 3 and [1s, 2s, 4s]); consequently for every 1-based attempt the
clamped backoff index is within the bounds of the backoff list, the lookup
returns a value, and `UpdateWithRetry` on such a client never reaches the
out-of-range outcome in any environment. -/
theorem C9_backoff_index_safe :
    (1 ≤ NewClient.retry.MaxRetries ∧ NewClient.retry.Backoff ≠ []) ∧
    (∀ baseURL retry, 1 ≤ (NewClientWithOptions baseURL retry).retry.MaxRetries ∧
      (NewClientWithOptions baseURL retry).retry.Backoff ≠ []) ∧
    (∀ (backoff : List Int) (attempt : Nat), backoff ≠ [] → 1 ≤ attempt →
      0 ≤ clampedBackoffIndex backoff attempt ∧
      (clampedBackoffIndex backoff attempt).toNat < backoff.length ∧
      ∃ d, backoffLookup backoff attempt = some d) ∧
    (∀ (c : Client) (env : Env) (k : Nat), c.retry.Backoff ≠ [] →
      (UpdateWithRetry c env).1 ≠ .error (.backoffIndexOutOfRange k)) := by
  refine ⟨⟨by decide, by decide⟩, fun baseURL retry => ⟨?_, ?_⟩,
    fun backoff attempt hbo ha => ?_, fun c env k hbo => ?_⟩
  · simp only [NewClientWithOptions]
    split
    · decide
    · omega
  · simp only [NewClientWithOptions]
    split
    · decide
    · simp_all [List.length_eq_zero]
  · have hlen : 0 < backoff.length := List.length_pos.mpr hbo
    have hcond : 0 ≤ clampedBackoffIndex backoff attempt ∧
        (clampedBackoffIndex backoff attempt).toNat < backoff.length := by
      unfold clampedBackoffIndex
      split <;> omega
    exact ⟨hcond.1, hcond.2, backoffLookup_isSome backoff attempt hbo ha⟩
  · exact retryLoop_no_panic c env (c.retry.MaxRetries + 1) hbo
      (c.retry.MaxRetries + 1).toNat 1 none (le_refl 1) k

/-- Witness for C9 at concrete inputs: the degenerate arguments
MaxRetries = 0 and empty backoff are replaced by the defaults, the lookup
succeeds at attempt 5, and a concrete retry run against a failing server
does not hit the out-of-range outcome. -/
theorem C9_backoff_index_safe_witness :
    (1 ≤ (NewClientWithOptions "" ⟨0, []⟩).retry.MaxRetries ∧
      (NewClientWithOptions "" ⟨0, []⟩).retry.Backoff ≠ []) ∧
    (∃ d, backoffLookup [10, 20] 5 = some d) ∧
    (UpdateWithRetry NewClient
      ⟨fun _ => .success ⟨500, ""⟩, fun _ => false, fun _ => false⟩).1 ≠
      .error (.backoffIndexOutOfRange 2) := by
  refine ⟨C9_backoff_index_safe.2.1 "" ⟨0, []⟩, ?_, ?_⟩
  · exact (C9_backoff_index_safe.2.2.1 [10, 20] 5 (by decide) (by decide)).2.2
  · exact C9_backoff_index_safe.2.2.2 NewClient
      ⟨fun _ => .success ⟨500, ""⟩, fun _ => false, fun _ => false⟩ 2 (by decide)

/-- Scheduler state (scheduler.go lines 16-34): tick interval, domain,
token and the mutable last-observed IP. The fetcher and the DuckDNS client
are collaborators modelled by explicit environments. -/
structure Scheduler where
  interval : Int
  domain : String
  token : String
  lastIP : String
deriving Repr, DecidableEq

/-- Model of `NewScheduler` (scheduler.go lines 47-67): the last-observed
IP starts empty so that the first cycle always treats a fetched IP as
changed. -/
def NewScheduler (interval : Int) (domain token : String) : Scheduler :=
  { interval := interval, domain := domain, token := token, lastIP := "" }

/-- Observable outcome of one `checkAndUpdate` cycle. -/
inductive CycleOutcome where
  | fetchFailed (msg : String)
  | unchanged (ip : String)
  | updateFailed (e : UpdateError)
  | updated (ip : String)
deriving Repr, DecidableEq

/-- Model of `Scheduler.checkAndUpdate` (scheduler.go lines 118-169):
fetch the current IP (failure is logged and absorbed), skip entirely when
it equals the last-observed IP, otherwise call the client's single update
operation `Update` once; on update failure keep the state unchanged, on
success record the new IP. The `Nat` component counts the HTTP calls made
to the update provider during the cycle. -/
def checkAndUpdate (s : Scheduler) (fetchResult : Except String String)
    (doResult : DoResult) : Scheduler × CycleOutcome × Nat :=
  match fetchResult with
  | .error msg => (s, .fetchFailed msg, 0)
  | .ok currentIP =>
    if s.lastIP = currentIP then
      (s, .unchanged currentIP, 0)
    else
      match Update doResult with
      | .error e => (s, .updateFailed e, 1)
      | .ok _ => ({ s with lastIP := currentIP }, .updated currentIP, 1)

/-- Environment of a `Scheduler.Run` execution: per-cycle fetch outcomes
and provider HTTP outcomes (index 0 is the initial cycle, index i ≥ 1 the
cycle after the i-th tick), and whether the i-th iteration of the tick
loop's select observes `ctx.Done()` instead of the tick. -/
structure SchedulerEnv where
  fetchResult : Nat → Except String String
  doResult : Nat → DoResult
  cancelledAtSelect : Nat → Bool

/-- Model of the tick loop of `Scheduler.Run` (scheduler.go lines 98-111):
each iteration selects between the tick and the cancellation signal; on
cancellation the loop returns, otherwise it runs one cycle and continues.
`fuel` bounds how many iterations of the infinite loop are examined. The
`Nat` component counts the cycles executed by the loop. -/
def runLoop (env : SchedulerEnv) : Scheduler → Nat → Nat → Scheduler × Nat
  | s, _i, 0 => (s, 0)
  | s, i, fuel + 1 =>
    if env.cancelledAtSelect i then
      (s, 0)
    else
      let r := checkAndUpdate s (env.fetchResult i) (env.doResult i)
      let rest := runLoop env r.1 (i + 1) fuel
      (rest.1, rest.2 + 1)

/-- Model of `Scheduler.Run` (scheduler.go lines 84-112): one
check-and-update cycle runs unconditionally before the tick loop starts;
only then does the loop consult the cancellation signal. The `Nat`
component counts all cycles executed. -/
def Run (env : SchedulerEnv) (s : Scheduler) (fuel : Nat) : Scheduler × Nat :=
  let r0 := checkAndUpdate s (env.fetchResult 0) (env.doResult 0)
  let rest := runLoop env r0.1 1 fuel
  (rest.1, rest.2 + 1)

/-- Counterexample to C2: the scheduler does not invoke the retrying
update. In a first cycle whose fetched IP "1.2.3.4" differs from the empty
last-observed IP, against a provider that always answers HTTP 500, the
cycle performs exactly 1 provider call, whereas `UpdateWithRetry` of the
default client in the same environment performs 4 attempts. -/
theorem C2_counterexample :
    (checkAndUpdate (NewScheduler 300 "test-domain" "test-token")
      (.ok "1.2.3.4") (.success ⟨500, ""⟩)).2.2 = 1 ∧
    (UpdateWithRetry NewClient
      ⟨fun _ => .success ⟨500, ""⟩, fun _ => false, fun _ => false⟩).2 = 4 ∧
    (1 : Nat) ≠ 4 := by
  refine ⟨by decide, by decide, by decide⟩

/-- C2 (amended): in every check cycle where the fetched IP differs from
the last-observed IP the scheduler invokes the client's single update
operation `Update` exactly once; if that update fails the last-observed IP
is left unchanged, so the next cycle repeats the same comparison, and only
on a successful update is the last-observed IP set to the fetched IP. -/
theorem C2_update_on_change (s : Scheduler) (ip : String) (doRes : DoResult)
    (hne : s.lastIP ≠ ip) :
    (checkAndUpdate s (.ok ip) doRes).2.2 = 1 ∧
    ((∃ e, Update doRes = .error e) → (checkAndUpdate s (.ok ip) doRes).1 = s) ∧
    (∀ v, Update doRes = .ok v →
      (checkAndUpdate s (.ok ip) doRes).1 = { s with lastIP := ip }) := by
  rw [checkAndUpdate]
  rw [if_neg hne]
  refine ⟨?_, ?_, ?_⟩
  · cases Update doRes <;> rfl
  · rintro ⟨e, he⟩
    rw [he]
  · intro v hv
    rw [hv]

/-- Witness for C2 (amended) at concrete inputs: with last-observed IP
empty, fetched IP "1.2.3.4" and a failing provider, the cycle makes one
update call and leaves the state unchanged. -/
theorem C2_update_on_change_witness :
    (checkAndUpdate (NewScheduler 300 "d" "t") (.ok "1.2.3.4")
      (.success ⟨500, ""⟩)).2.2 = 1 ∧
    (checkAndUpdate (NewScheduler 300 "d" "t") (.ok "1.2.3.4")
      (.success ⟨500, ""⟩)).1 = NewScheduler 300 "d" "t" := by
  have h := C2_update_on_change (NewScheduler 300 "d" "t") "1.2.3.4"
    (.success ⟨500, ""⟩) (by decide)
  exact ⟨h.1, h.2.1 ⟨.statusError 500, rfl⟩⟩

/-- C3: a check cycle whose fetched IP equals the stored last-observed IP
makes no update call at all; the scheduler is constructed with an empty
last-observed IP, so the first cycle fetching "1.2.3.4" (with a provider
answering "OK") performs exactly one update call and records the IP, and
the following cycle fetching the same IP performs zero update calls. -/
theorem C3_skip_when_unchanged :
    (∀ (s : Scheduler) (doRes : DoResult),
      checkAndUpdate s (.ok s.lastIP) doRes = (s, .unchanged s.lastIP, 0)) ∧
    ((NewScheduler 300 "d" "t").lastIP = "" ∧
     (checkAndUpdate (NewScheduler 300 "d" "t") (.ok "1.2.3.4")
       (.success ⟨200, "OK"⟩)).2.2 = 1 ∧
     (checkAndUpdate (NewScheduler 300 "d" "t") (.ok "1.2.3.4")
       (.success ⟨200, "OK"⟩)).1.lastIP = "1.2.3.4" ∧
     (checkAndUpdate
       (checkAndUpdate (NewScheduler 300 "d" "t") (.ok "1.2.3.4")
         (.success ⟨200, "OK"⟩)).1
       (.ok "1.2.3.4") (.success ⟨200, "OK"⟩)).2.2 = 0) := by
  refine ⟨fun s doRes => ?_, by decide, by decide, by decide, by decide⟩
  rw [checkAndUpdate]
  rw [if_pos rfl]

/-- Witness for C3 at a concrete input: a scheduler already holding
"9.9.9.9" skips the update when the fetch returns the same IP. -/
theorem C3_skip_when_unchanged_witness :
    checkAndUpdate ⟨300, "d", "t", "9.9.9.9"⟩ (.ok "9.9.9.9")
      (.success ⟨200, "OK"⟩) = (⟨300, "d", "t", "9.9.9.9"⟩, .unchanged "9.9.9.9", 0) :=
  C3_skip_when_unchanged.1 ⟨300, "d", "t", "9.9.9.9"⟩ (.success ⟨200, "OK"⟩)

/-- C10: `Run` always executes one full check-and-update cycle before it
first inspects the cancellation signal: whatever the environment — in
particular when the context is already cancelled at entry, so that the
first select observes `ctx.Done()` — at least one cycle runs, and if the
first select observes cancellation the result is exactly the state after
the initial cycle with no further cycle executed. -/
theorem C10_initial_cycle_runs (env : SchedulerEnv) (s : Scheduler) (fuel : Nat) :
    1 ≤ (Run env s fuel).2 ∧
    (env.cancelledAtSelect 1 = true →
      Run env s fuel = ((checkAndUpdate s (env.fetchResult 0) (env.doResult 0)).1, 1)) := by
  constructor
  · rw [Run]
    omega
  · intro hc
    rw [Run]
    cases fuel with
    | zero => rfl
    | succ f =>
      rw [runLoop]
      rw [hc]
      simp

/-- Witness for C10 at a concrete input: with the cancellation signal
already observable at every select and a failing fetch, exactly the
initial cycle runs. -/
theorem C10_initial_cycle_runs_witness :
    Run ⟨fun _ => .error "boom", fun _ => .success ⟨200, "OK"⟩, fun _ => true⟩
      (NewScheduler 300 "d" "t") 5 = (NewScheduler 300 "d" "t", 1) := by
  have h := (C10_initial_cycle_runs
    ⟨fun _ => .error "boom", fun _ => .success ⟨200, "OK"⟩, fun _ => true⟩
    (NewScheduler 300 "d" "t") 5).2 rfl
  simpa [checkAndUpdate] using h

/-- A diagnostic entry recorded by the failover fetcher for a source that
yielded no IP (fetcher.go lines 223-264): either the URL at the index was
blank, or the attempt at the index failed with an error message. -/
inductive SourceNote where
  | blankURL (index : Nat)
  | sourceFailed (index : Nat) (url : String) (msg : String)
deriving Repr, DecidableEq

/-- Errors of `MultipleFetcher.Fetch` (fetcher.go lines 218-220 and
267-272): no sources configured, or every source failed (carrying the
per-source diagnostics in attempt order). -/
inductive FetchError where
  | noSourcesConfigured
  | allSourcesFailed (notes : List SourceNote)
deriving Repr, DecidableEq

/-- Failover fetcher configuration (fetcher.go lines 171-177). -/
structure MultipleFetcher where
  URLs : List String
  timeout : Int
deriving Repr, DecidableEq

/-- Model of the source loop of `MultipleFetcher.Fetch` (fetcher.go lines
226-272). `fetchResults` gives the outcome of the per-source
`HTTPFetcher.Fetch` call at each index; `i` is the index of the first URL
of the remaining list; `notes` accumulates the diagnostics so far. The
result carries the outcome, the list of indices actually fetched over the
network (in attempt order), and the final diagnostics. -/
def mfLoop (fetchResults : Nat → Except String String) :
    Nat → List String → List SourceNote →
      Except FetchError String × List Nat × List SourceNote
  | _i, [], notes => (.error (.allSourcesFailed notes), [], notes)
  | i, url :: rest, notes =>
    if trimSpace url = "" then
      mfLoop fetchResults (i + 1) rest (notes ++ [.blankURL i])
    else
      match fetchResults i with
      | .ok ip => (.ok ip, [i], notes)
      | .error msg =>
        let r := mfLoop fetchResults (i + 1) rest (notes ++ [.sourceFailed i url msg])
        (r.1, i :: r.2.1, r.2.2)

/-- Model of `MultipleFetcher.Fetch` (fetcher.go lines 217-273): fail
immediately when no URLs are configured, otherwise walk the sources in
list order from index 0. -/
def MultipleFetcher.Fetch (mf : MultipleFetcher)
    (fetchResults : Nat → Except String String) :
    Except FetchError String × List Nat × List SourceNote :=
  if mf.URLs.length = 0 then
    (.error .noSourcesConfigured, [], [])
  else
    mfLoop fetchResults 0 mf.URLs []

/-- Unfolding equation of `mfLoop` for a blank head URL. -/
theorem mfLoop_cons_blank (fetchResults : Nat → Except String String)
    (i : Nat) (url : String) (rest : List String) (notes : List SourceNote)
    (hb : trimSpace url = "") :
    mfLoop fetchResults i (url :: rest) notes =
      mfLoop fetchResults (i + 1) rest (notes ++ [.blankURL i]) := by
  rw [mfLoop, if_pos hb]

/-- Unfolding equation of `mfLoop` for a non-blank head URL whose fetch
succeeds. -/
theorem mfLoop_cons_ok (fetchResults : Nat → Except String String)
    (i : Nat) (url : String) (rest : List String) (notes : List SourceNote)
    (ip : String) (hb : trimSpace url ≠ "") (hfr : fetchResults i = .ok ip) :
    mfLoop fetchResults i (url :: rest) notes = (.ok ip, [i], notes) := by
  rw [mfLoop, if_neg hb, hfr]

/-- Unfolding equation of `mfLoop` for a non-blank head URL whose fetch
fails. -/
theorem mfLoop_cons_error (fetchResults : Nat → Except String String)
    (i : Nat) (url : String) (rest : List String) (notes : List SourceNote)
    (msg : String) (hb : trimSpace url ≠ "") (hfr : fetchResults i = .error msg) :
    mfLoop fetchResults i (url :: rest) notes =
      ((mfLoop fetchResults (i + 1) rest (notes ++ [.sourceFailed i url msg])).1,
       i :: (mfLoop fetchResults (i + 1) rest (notes ++ [.sourceFailed i url msg])).2.1,
       (mfLoop fetchResults (i + 1) rest (notes ++ [.sourceFailed i url msg])).2.2) := by
  rw [mfLoop, if_neg hb, hfr]

/-- Helper: every index actually fetched by the loop designates an
in-range, non-blank URL of the remaining list. -/
theorem mfLoop_attempted (fetchResults : Nat → Except String String) :
    ∀ (urls : List String) (i : Nat) (notes : List SourceNote) (k : Nat),
      k ∈ (mfLoop fetchResults i urls notes).2.1 →
      i ≤ k ∧ k - i < urls.length ∧
        ∃ u, urls.get? (k - i) = some u ∧ trimSpace u ≠ "" := by
  intro urls
  induction urls with
  | nil =>
    intro i notes k hk
    simp [mfLoop] at hk
  | cons url rest ih =>
    intro i notes k hk
    by_cases hb : trimSpace url = ""
    · rw [mfLoop_cons_blank fetchResults i url rest notes hb] at hk
      obtain ⟨h1, h2, u, hu, hnb⟩ := ih (i + 1) (notes ++ [.blankURL i]) k hk
      have hki : k - i = (k - (i + 1)) + 1 := by omega
      refine ⟨by omega, by simp only [List.length_cons]; omega, u, ?_, hnb⟩
      rw [hki, List.get?_cons_succ]
      exact hu
    · cases hfr : fetchResults i with
      | ok ip =>
        rw [mfLoop_cons_ok fetchResults i url rest notes ip hb hfr] at hk
        simp only [List.mem_singleton] at hk
        have hki : k - i = 0 := by omega
        refine ⟨by omega, by simp only [List.length_cons]; omega, url, ?_, hb⟩
        rw [hki]
        simp
      | error msg =>
        rw [mfLoop_cons_error fetchResults i url rest notes msg hb hfr] at hk
        simp only [List.mem_cons] at hk
        cases hk with
        | inl hk =>
          have hki : k - i = 0 := by omega
          refine ⟨by omega, by simp only [List.length_cons]; omega, url, ?_, hb⟩
          rw [hki]
          simp
        | inr hk =>
          obtain ⟨h1, h2, u, hu, hnb⟩ :=
            ih (i + 1) (notes ++ [.sourceFailed i url msg]) k hk
          have hki : k - i = (k - (i + 1)) + 1 := by omega
          refine ⟨by omega, by simp only [List.length_cons]; omega, u, ?_, hnb⟩
          rw [hki, List.get?_cons_succ]
          exact hu

/-- Helper: when the loop succeeds, the IP comes from the last attempted
index, whose per-source fetch succeeded; no attempted index lies beyond
it. -/
theorem mfLoop_first_success (fetchResults : Nat → Except String String) :
    ∀ (urls : List String) (i : Nat) (notes : List SourceNote) (ip : String),
      (mfLoop fetchResults i urls notes).1 = .ok ip →
      ∃ j, j ∈ (mfLoop fetchResults i urls notes).2.1 ∧
        fetchResults j = .ok ip ∧
        ∀ k ∈ (mfLoop fetchResults i urls notes).2.1, k ≤ j := by
  intro urls
  induction urls with
  | nil =>
    intro i notes ip h
    simp [mfLoop] at h
  | cons url rest ih =>
    intro i notes ip h
    by_cases hb : trimSpace url = ""
    · rw [mfLoop_cons_blank fetchResults i url rest notes hb] at h ⊢
      exact ih (i + 1) (notes ++ [.blankURL i]) ip h
    · cases hfr : fetchResults i with
      | ok ip' =>
        rw [mfLoop_cons_ok fetchResults i url rest notes ip' hb hfr] at h ⊢
        simp only [Except.ok.injEq] at h
        subst h
        exact ⟨i, by simp, hfr, by simp⟩
      | error msg =>
        rw [mfLoop_cons_error fetchResults i url rest notes msg hb hfr] at h ⊢
        obtain ⟨j, hjmem, hjok, hjmax⟩ :=
          ih (i + 1) (notes ++ [.sourceFailed i url msg]) ip h
        have hij : i + 1 ≤ j :=
          (mfLoop_attempted fetchResults rest (i + 1)
            (notes ++ [.sourceFailed i url msg]) j hjmem).1
        refine ⟨j, by simp [hjmem], hjok, ?_⟩
        intro k hk
        simp only [List.mem_cons] at hk
        cases hk with
        | inl hk => omega
        | inr hk => exact hjmax k hk

/-- C6: `MultipleFetcher.Fetch` walks the URL list in order; a blank or
whitespace-only entry is skipped with a non-fatal `blankURL` note appended
to the diagnostics and the loop continues with the remaining sources;
every index actually fetched designates a non-blank URL of the list; and
when the call succeeds the returned IP comes from the last attempted
source, whose per-source fetch succeeded, so no later source is ever
attempted in that call. -/
theorem C6_failover_order (fetchResults : Nat → Except String String)
    (mf : MultipleFetcher) :
    (∀ (i : Nat) (url : String) (rest : List String) (notes : List SourceNote),
      trimSpace url = "" →
      mfLoop fetchResults i (url :: rest) notes =
        mfLoop fetchResults (i + 1) rest (notes ++ [.blankURL i])) ∧
    (∀ k, k ∈ (MultipleFetcher.Fetch mf fetchResults).2.1 →
      ∃ u, mf.URLs.get? k = some u ∧ trimSpace u ≠ "") ∧
    (∀ ip, (MultipleFetcher.Fetch mf fetchResults).1 = .ok ip →
      ∃ j, j ∈ (MultipleFetcher.Fetch mf fetchResults).2.1 ∧
        fetchResults j = .ok ip ∧
        ∀ k ∈ (MultipleFetcher.Fetch mf fetchResults).2.1, k ≤ j) := by
  refine ⟨fun i url rest notes hb => ?_, fun k hk => ?_, fun ip hip => ?_⟩
  · rw [mfLoop, if_pos hb]
  · rw [MultipleFetcher.Fetch] at hk
    by_cases hlen : mf.URLs.length = 0
    · rw [if_pos hlen] at hk
      simp at hk
    · rw [if_neg hlen] at hk
      have h := mfLoop_attempted fetchResults mf.URLs 0 [] k hk
      simpa using h.2.2
  · rw [MultipleFetcher.Fetch] at hip ⊢
    by_cases hlen : mf.URLs.length = 0
    · rw [if_pos hlen] at hip
      simp at hip
    · rw [if_neg hlen] at hip ⊢
      exact mfLoop_first_success fetchResults mf.URLs 0 [] ip hip

/-- Witness for C6 at concrete inputs: with sources ["", "a", "b"] where
the blank index 0 is skipped with a note, index 1 fails and index 2
succeeds, the call returns "10.0.0.1" obtained at the last attempted
index, with no attempted index beyond it. -/
theorem C6_failover_order_witness :
    (mfLoop (fun k => if k = 2 then .ok "10.0.0.1" else .error "boom") 0
        ("" :: ["a", "b"]) [] =
      mfLoop (fun k => if k = 2 then .ok "10.0.0.1" else .error "boom") 1
        ["a", "b"] ([] ++ [.blankURL 0])) ∧
    (∃ j, j ∈ (MultipleFetcher.Fetch ⟨["", "a", "b"], 10⟩
        (fun k => if k = 2 then .ok "10.0.0.1" else .error "boom")).2.1 ∧
      (fun k => if k = 2 then (Except.ok "10.0.0.1" : Except String String)
        else .error "boom") j = .ok "10.0.0.1" ∧
      ∀ k ∈ (MultipleFetcher.Fetch ⟨["", "a", "b"], 10⟩
        (fun k => if k = 2 then .ok "10.0.0.1" else .error "boom")).2.1, k ≤ j) := by
  constructor
  · exact (C6_failover_order (fun k => if k = 2 then .ok "10.0.0.1" else .error "boom")
      ⟨["", "a", "b"], 10⟩).1 0 "" ["a", "b"] [] (by decide)
  · exact (C6_failover_order (fun k => if k = 2 then .ok "10.0.0.1" else .error "boom")
      ⟨["", "a", "b"], 10⟩).2.2 "10.0.0.1" rfl

/-- C7: with an empty source list, `MultipleFetcher.Fetch` fails
immediately with the no-sources-configured error, having fetched no
source and recorded no diagnostic, whatever the environment would have
answered. -/
theorem C7_empty_sources (timeout : Int)
    (fetchResults : Nat → Except String String) :
    MultipleFetcher.Fetch ⟨[], timeout⟩ fetchResults =
      (.error .noSourcesConfigured, [], []) := rfl

/-- Witness for C7 at a concrete input. -/
theorem C7_empty_sources_witness :
    MultipleFetcher.Fetch ⟨[], 10 * oneSecond⟩ (fun _ => .ok "1.2.3.4") =
      (.error .noSourcesConfigured, [], []) :=
  C7_empty_sources (10 * oneSecond) (fun _ => .ok "1.2.3.4")

/-- Character of a single decimal digit value (48 is the code of '0'). -/
def decimalDigitChar (d : Nat) : Char := Char.ofNat (48 + d)

/-- Numeric value of a decimal digit character. -/
def digitVal (c : Char) : Nat := c.toNat - 48

/-- Splitting a character list at every '.'. This models how the anchored
regular expression of fetcher.go line 148 decomposes its subject: the
pattern matches exactly when the dot-separated groups all consist of one
to three digits. -/
def splitOnDot : List Char → List (List Char)
  | [] => [[]]
  | c :: rest =>
    if c = '.' then
      [] :: splitOnDot rest
    else
      match splitOnDot rest with
      | [] => [[c]]
      | g :: gs => (c :: g) :: gs

/-- Model of one group `(\d{1,3})` of the IPv4 pattern of fetcher.go line
148: one to three characters, all ASCII digits. -/
def octetPattern (g : List Char) : Bool :=
  decide (1 ≤ g.length) && decide (g.length ≤ 3) && g.all Char.isDigit

/-- Model of the anchored pattern
`^(\d{1,3})\.(\d{1,3})\.(\d{1,3})\.(\d{1,3})$` of fetcher.go line 148:
the subject splits at dots into exactly four digit groups. -/
def ipv4Pattern (s : List Char) : Bool :=
  decide ((splitOnDot s).length = 4) && (splitOnDot s).all octetPattern

/-- Decimal value of a digit group, most significant digit first. -/
def octetValue (g : List Char) : Nat :=
  g.foldl (fun acc c => 10 * acc + digitVal c) 0

/-- Model of how `net.ParseIP` (Go 1.17 and later — the repository
requires Go 1.21) parses one field of a dotted-decimal IPv4 address: the
field must be non-empty, all digits, must not have a leading zero unless
it is exactly "0", and its value must not exceed 255. -/
def parseIPv4Field (g : List Char) : Option Nat :=
  if g = [] then none
  else if ¬ g.all Char.isDigit then none
  else if 1 < g.length ∧ g.head? = some '0' then none
  else if 255 < octetValue g then none
  else some (octetValue g)

/-- Model of `net.ParseIP` followed by the `To4() != nil` check
(fetcher.go lines 156-164), restricted to the strings on which
`ValidateIPv4` actually consults it — strings that already matched the
IPv4 regular expression. Such strings contain only digits and dots, so
`ParseIP` takes its dotted-decimal branch and, whenever it succeeds,
produces an IPv4 address on which `To4` is never nil; hence the fourth
error branch of the source is unreachable there and parsing reduces to
the four fields. -/
def parseIPv4Quad (s : List Char) : Option (Nat × Nat × Nat × Nat) :=
  match splitOnDot s with
  | [g1, g2, g3, g4] =>
    match parseIPv4Field g1, parseIPv4Field g2, parseIPv4Field g3, parseIPv4Field g4 with
    | some a, some b, some c, some d => some (a, b, c, d)
    | _, _, _, _ => none
  | _ => none

/-- Errors of `ValidateIPv4` (fetcher.go lines 140-167): empty input,
regular-expression mismatch, and `net.ParseIP` failure. -/
inductive ValidationError where
  | emptyIP
  | patternMismatch
  | parseFailed
deriving Repr, DecidableEq

/-- Model of `ValidateIPv4` (fetcher.go lines 140-167): reject the empty
string, then require the anchored IPv4 regular expression to match, then
require `net.ParseIP` to accept the dotted quad. -/
def ValidateIPv4 (s : String) : Except ValidationError Unit :=
  if s = "" then .error .emptyIP
  else if ¬ ipv4Pattern s.data then .error .patternMismatch
  else
    match parseIPv4Quad s.data with
    | none => .error .parseFailed
    | some _ => .ok ()

/-- Canonical decimal numeral (one to three digits, no leading zero) of a
value below 1000; used to state what a well-formed decimal octet is. -/
def canonicalOctet (v : Nat) : List Char :=
  if v < 10 then [decimalDigitChar v]
  else if v < 100 then [decimalDigitChar (v / 10), decimalDigitChar (v % 10)]
  else [decimalDigitChar (v / 100), decimalDigitChar (v / 10 % 10), decimalDigitChar (v % 10)]

/-- Specification-side predicate, following the spec's words: a
well-formed IPv4 dotted-quad string is exactly four decimal octets, each
the standard decimal numeral of a value in 0-255, joined by dots. -/
def wellFormedIPv4 (s : String) : Prop :=
  ∃ a b c d : Nat, a ≤ 255 ∧ b ≤ 255 ∧ c ≤ 255 ∧ d ≤ 255 ∧
    s.data = canonicalOctet a ++
      ('.' :: (canonicalOctet b ++ ('.' :: (canonicalOctet c ++ ('.' :: canonicalOctet d)))))

/-- Helper: `splitOnDot` never returns the empty list of groups. -/
theorem splitOnDot_ne_nil : ∀ xs : List Char, splitOnDot xs ≠ [] := by
  intro xs
  induction xs with
  | nil => simp [splitOnDot]
  | cons c rest ih =>
    rw [splitOnDot]
    by_cases hc : c = '.'
    · simp [hc]
    · rw [if_neg hc]
      cases h : splitOnDot rest <;> simp

/-- Helper: a dot-free character list splits into a single group. -/
theorem splitOnDot_no_dot : ∀ xs : List Char, '.' ∉ xs → splitOnDot xs = [xs] := by
  intro xs
  induction xs with
  | nil => intro _; rfl
  | cons c rest ih =>
    intro h
    simp only [List.mem_cons, not_or] at h
    rw [splitOnDot, if_neg (fun hh => h.1 hh.symm), ih h.2]

/-- Helper: splitting distributes over a dot that follows a dot-free
prefix. -/
theorem splitOnDot_append : ∀ (xs ys : List Char), '.' ∉ xs →
    splitOnDot (xs ++ '.' :: ys) = xs :: splitOnDot ys := by
  intro xs
  induction xs with
  | nil => intro ys _; simp [splitOnDot]
  | cons c rest ih =>
    intro ys h
    simp only [List.mem_cons, not_or] at h
    rw [List.cons_append, splitOnDot, if_neg (fun hh => h.1 hh.symm), ih ys h.2]

/-- Joining groups back with dots; inverse of `splitOnDot`. -/
def joinDots : List (List Char) → List Char
  | [] => []
  | [g] => g
  | g :: gs => g ++ '.' :: joinDots gs

/-- Helper: joining the split groups reconstructs the original list. -/
theorem joinDots_splitOnDot : ∀ xs : List Char, joinDots (splitOnDot xs) = xs := by
  intro xs
  induction xs with
  | nil => rfl
  | cons c rest ih =>
    rw [splitOnDot]
    by_cases hc : c = '.'
    · subst hc
      rw [if_pos rfl]
      cases h : splitOnDot rest with
      | nil => exact absurd h (splitOnDot_ne_nil rest)
      | cons g gs =>
        have hj : joinDots ([] :: g :: gs) = '.' :: joinDots (g :: gs) := rfl
        rw [hj, ← h, ih]
    · rw [if_neg hc]
      cases h : splitOnDot rest with
      | nil => exact absurd h (splitOnDot_ne_nil rest)
      | cons g gs =>
        cases gs with
        | nil =>
          have hg : g = rest := by
            have := ih
            rw [h] at this
            exact this
          rw [hg]
          rfl
        | cons g2 gs2 =>
          have hj : joinDots ((c :: g) :: g2 :: gs2) =
              c :: joinDots (g :: g2 :: gs2) := by
            have h1 : joinDots ((c :: g) :: g2 :: gs2) =
                (c :: g) ++ '.' :: joinDots (g2 :: gs2) := rfl
            have h2 : joinDots (g :: g2 :: gs2) =
                g ++ '.' :: joinDots (g2 :: gs2) := rfl
            rw [h1, h2]
            rfl
          rw [hj, ← h, ih]

/-- Helper: digit characters have code points between 48 and 57. -/
theorem isDigit_toNat_bounds (c : Char) (h : c.isDigit = true) :
    48 ≤ c.toNat ∧ c.toNat ≤ 57 := by
  simp only [Char.isDigit, ge_iff_le, Bool.and_eq_true, decide_eq_true_eq] at h
  exact ⟨UInt32.le_toNat_of_le (by norm_num [UInt32.size]) h.1,
         UInt32.toNat_le_of_le (by norm_num [UInt32.size]) h.2⟩

/-- Helper: on a digit character, `decimalDigitChar` inverts `digitVal`. -/
theorem decimalDigitChar_digitVal (c : Char) (h : c.isDigit = true) :
    decimalDigitChar (digitVal c) = c := by
  obtain ⟨h1, _⟩ := isDigit_toNat_bounds c h
  have he : 48 + (c.toNat - 48) = c.toNat := by omega
  rw [decimalDigitChar, digitVal, he, Char.ofNat_toNat]

/-- Helper: the value of a digit character is at most 9. -/
theorem digitVal_le_nine (c : Char) (h : c.isDigit = true) : digitVal c ≤ 9 := by
  obtain ⟨_, h2⟩ := isDigit_toNat_bounds c h
  rw [digitVal]
  omega

/-- Helper: a digit character other than '0' has a positive value. -/
theorem digitVal_pos_of_ne_zero (c : Char) (h : c.isDigit = true) (hz : c ≠ '0') :
    1 ≤ digitVal c := by
  obtain ⟨h1, _⟩ := isDigit_toNat_bounds c h
  rw [digitVal]
  rcases Nat.lt_or_ge 48 c.toNat with hlt | hge
  · omega
  · exfalso
    have h48 : c.toNat = 48 := by omega
    have hofn := Char.ofNat_toNat c
    rw [h48] at hofn
    apply hz
    rw [← hofn]

/-- Value of a one-digit group. -/
theorem octetValue_one (c1 : Char) : octetValue [c1] = digitVal c1 := by
  simp [octetValue]

/-- Value of a two-digit group. -/
theorem octetValue_two (c1 c2 : Char) :
    octetValue [c1, c2] = 10 * digitVal c1 + digitVal c2 := by
  simp [octetValue]

/-- Value of a three-digit group. -/
theorem octetValue_three (c1 c2 c3 : Char) :
    octetValue [c1, c2, c3] = 100 * digitVal c1 + 10 * digitVal c2 + digitVal c3 := by
  simp [octetValue]
  ring

set_option maxRecDepth 10000 in
/-- Helper, checked exhaustively over the 256 octet values: the canonical
numeral of a value below 256 contains no dot, matches one regex group, and
is accepted by the field parser with exactly that value. -/
theorem canonicalOctet_facts : ∀ v : Nat, v < 256 →
    ('.' ∉ canonicalOctet v) ∧ octetPattern (canonicalOctet v) = true ∧
    parseIPv4Field (canonicalOctet v) = some v := by decide

/-- Helper: a group accepted by both the regex pattern and the field
parser is the canonical numeral of its value, which is at most 255. -/
theorem parseIPv4Field_some_canonical (g : List Char) (v : Nat)
    (hp : octetPattern g = true) (h : parseIPv4Field g = some v) :
    g = canonicalOctet v ∧ v ≤ 255 := by
  simp only [octetPattern, Bool.and_eq_true, decide_eq_true_eq] at hp
  obtain ⟨⟨hlen1, hlen3⟩, hdig⟩ := hp
  have hne : ¬ (g = []) := by
    intro hg
    rw [hg] at hlen1
    simp at hlen1
  rw [parseIPv4Field, if_neg hne, if_neg (fun hc => hc hdig)] at h
  by_cases hzero : 1 < g.length ∧ g.head? = some '0'
  · rw [if_pos hzero] at h
    cases h
  rw [if_neg hzero] at h
  by_cases hval : 255 < octetValue g
  · rw [if_pos hval] at h
    cases h
  rw [if_neg hval] at h
  have hv : octetValue g = v := by
    injection h
  have hvle : v ≤ 255 := by omega
  cases g with
  | nil => exact absurd rfl hne
  | cons c1 t1 =>
    cases t1 with
    | nil =>
      simp only [List.all_cons, List.all_nil, Bool.and_eq_true] at hdig
      have hd1 := digitVal_le_nine c1 hdig.1
      rw [octetValue_one] at hv
      constructor
      · rw [canonicalOctet, if_pos (by omega), ← hv,
            decimalDigitChar_digitVal c1 hdig.1]
      · omega
    | cons c2 t2 =>
      cases t2 with
      | nil =>
        simp only [List.all_cons, List.all_nil, Bool.and_eq_true] at hdig
        have hd1 := digitVal_le_nine c1 hdig.1
        have hd2 := digitVal_le_nine c2 hdig.2.1
        have hnz : c1 ≠ '0' := by
          intro hc1
          exact hzero ⟨by simp, by simp [hc1]⟩
        have hd1pos := digitVal_pos_of_ne_zero c1 hdig.1 hnz
        rw [octetValue_two] at hv
        have hdiv : v / 10 = digitVal c1 := by omega
        have hmod : v % 10 = digitVal c2 := by omega
        constructor
        · rw [canonicalOctet, if_neg (by omega), if_pos (by omega), hdiv, hmod,
              decimalDigitChar_digitVal c1 hdig.1,
              decimalDigitChar_digitVal c2 hdig.2.1]
        · omega
      | cons c3 t3 =>
        cases t3 with
        | nil =>
          simp only [List.all_cons, List.all_nil, Bool.and_eq_true] at hdig
          have hd1 := digitVal_le_nine c1 hdig.1
          have hd2 := digitVal_le_nine c2 hdig.2.1
          have hd3 := digitVal_le_nine c3 hdig.2.2.1
          have hnz : c1 ≠ '0' := by
            intro hc1
            exact hzero ⟨by simp, by simp [hc1]⟩
          have hd1pos := digitVal_pos_of_ne_zero c1 hdig.1 hnz
          rw [octetValue_three] at hv
          have hdiv100 : v / 100 = digitVal c1 := by omega
          have hdiv10 : v / 10 % 10 = digitVal c2 := by omega
          have hmod : v % 10 = digitVal c3 := by omega
          constructor
          · rw [canonicalOctet, if_neg (by omega), if_neg (by omega),
                hdiv100, hdiv10, hmod,
                decimalDigitChar_digitVal c1 hdig.1,
                decimalDigitChar_digitVal c2 hdig.2.1,
                decimalDigitChar_digitVal c3 hdig.2.2.1]
          · omega
        | cons c4 t4 =>
          exfalso
          simp at hlen3

/-- Helper: every well-formed dotted quad is accepted by `ValidateIPv4`. -/
theorem validate_of_wellFormed (s : String) (h : wellFormedIPv4 s) :
    ValidateIPv4 s = .ok () := by
  obtain ⟨a, b, c, d, ha, hb, hc, hd, hdata⟩ := h
  obtain ⟨hda, hpa, hfa⟩ := canonicalOctet_facts a (by omega)
  obtain ⟨hdb, hpb, hfb⟩ := canonicalOctet_facts b (by omega)
  obtain ⟨hdc, hpc, hfc⟩ := canonicalOctet_facts c (by omega)
  obtain ⟨hdd, hpd, hfd⟩ := canonicalOctet_facts d (by omega)
  have hsplit : splitOnDot s.data =
      [canonicalOctet a, canonicalOctet b, canonicalOctet c, canonicalOctet d] := by
    rw [hdata, splitOnDot_append _ _ hda, splitOnDot_append _ _ hdb,
        splitOnDot_append _ _ hdc, splitOnDot_no_dot _ hdd]
  have hlena : 1 ≤ (canonicalOctet a).length := by
    simp only [octetPattern, Bool.and_eq_true, decide_eq_true_eq] at hpa
    exact hpa.1.1
  have hne : s ≠ "" := by
    intro h0
    subst h0
    have hlen := congrArg List.length hdata
    simp only [String.data] at hlen
    simp [List.length_append] at hlen
    omega
  have hpat : ipv4Pattern s.data = true := by
    rw [ipv4Pattern, hsplit]
    simp [hpa, hpb, hpc, hpd]
  have hquad : parseIPv4Quad s.data = some (a, b, c, d) := by
    rw [parseIPv4Quad, hsplit]
    simp only [hfa, hfb, hfc, hfd]
  rw [ValidateIPv4, if_neg hne, if_neg (fun hcon => hcon hpat), hquad]

/-- Helper: every string accepted by `ValidateIPv4` is a well-formed
dotted quad. -/
theorem wellFormed_of_validate (s : String) (h : ValidateIPv4 s = .ok ()) :
    wellFormedIPv4 s := by
  rw [ValidateIPv4] at h
  by_cases h0 : s = ""
  · rw [if_pos h0] at h
    cases h
  rw [if_neg h0] at h
  by_cases hpat : ipv4Pattern s.data = true
  case neg =>
    rw [if_pos hpat] at h
    cases h
  rw [if_neg (fun hcon => hcon hpat)] at h
  simp only [ipv4Pattern, Bool.and_eq_true, decide_eq_true_eq] at hpat
  obtain ⟨hlen4, hall⟩ := hpat
  cases hq : parseIPv4Quad s.data with
  | none =>
    rw [hq] at h
    have h2 : (Except.error ValidationError.parseFailed :
        Except ValidationError Unit) = .ok () := h
    cases h2
  | some quad =>
    rw [parseIPv4Quad] at hq
    cases hsp : splitOnDot s.data with
    | nil => exact absurd hsp (splitOnDot_ne_nil s.data)
    | cons g1 t1 =>
      rw [hsp] at hq hlen4 hall
      cases t1 with
      | nil => simp at hlen4
      | cons g2 t2 =>
        cases t2 with
        | nil => simp at hlen4
        | cons g3 t3 =>
          cases t3 with
          | nil => simp at hlen4
          | cons g4 t4 =>
            cases t4 with
            | cons g5 t5 => simp at hlen4
            | nil =>
              simp only [List.all_cons, List.all_nil, Bool.and_eq_true] at hall
              have hq2 : (match parseIPv4Field g1, parseIPv4Field g2,
                  parseIPv4Field g3, parseIPv4Field g4 with
                | some a, some b, some c, some d => some (a, b, c, d)
                | _, _, _, _ => none) = some quad := hq
              cases hf1 : parseIPv4Field g1 with
              | none => rw [hf1] at hq2; cases hq2
              | some v1 =>
                cases hf2 : parseIPv4Field g2 with
                | none => rw [hf1, hf2] at hq2; cases hq2
                | some v2 =>
                  cases hf3 : parseIPv4Field g3 with
                  | none => rw [hf1, hf2, hf3] at hq2; cases hq2
                  | some v3 =>
                    cases hf4 : parseIPv4Field g4 with
                    | none => rw [hf1, hf2, hf3, hf4] at hq2; cases hq2
                    | some v4 =>
                      obtain ⟨hg1, hv1⟩ :=
                        parseIPv4Field_some_canonical g1 v1 hall.1 hf1
                      obtain ⟨hg2, hv2⟩ :=
                        parseIPv4Field_some_canonical g2 v2 hall.2.1 hf2
                      obtain ⟨hg3, hv3⟩ :=
                        parseIPv4Field_some_canonical g3 v3 hall.2.2.1 hf3
                      obtain ⟨hg4, hv4⟩ :=
                        parseIPv4Field_some_canonical g4 v4 hall.2.2.2.1 hf4
                      refine ⟨v1, v2, v3, v4, hv1, hv2, hv3, hv4, ?_⟩
                      have hjoin := joinDots_splitOnDot s.data
                      rw [hsp] at hjoin
                      have hj4 : joinDots [g1, g2, g3, g4] =
                          g1 ++ '.' :: (g2 ++ '.' :: (g3 ++ '.' :: g4)) := rfl
                      rw [hj4] at hjoin
                      rw [← hjoin, hg1, hg2, hg3, hg4]

/-- C8: `ValidateIPv4` succeeds exactly on the well-formed IPv4
dotted-quad strings (four decimal octets, each the standard numeral of a
value in 0-255, joined by dots) and fails on everything else — in
particular on the IPv6 literal "::1", on "256.1.1.1" (rejected by the
address parser), on "1.2.3", "1.2.3.4.5" and "not-an-ip" (rejected by the
pattern), and on the empty string. -/
theorem C8_validate_ipv4 :
    (∀ s : String, ValidateIPv4 s = .ok () ↔ wellFormedIPv4 s) ∧
    ValidateIPv4 "::1" = .error .patternMismatch ∧
    ValidateIPv4 "256.1.1.1" = .error .parseFailed ∧
    ValidateIPv4 "1.2.3" = .error .patternMismatch ∧
    ValidateIPv4 "1.2.3.4.5" = .error .patternMismatch ∧
    ValidateIPv4 "" = .error .emptyIP ∧
    ValidateIPv4 "not-an-ip" = .error .patternMismatch := by
  refine ⟨fun s => ⟨wellFormed_of_validate s, validate_of_wellFormed s⟩,
    rfl, rfl, rfl, rfl, rfl, rfl⟩

/-- Witness for C8 at concrete inputs: two well-formed quads are
accepted, through the characterization itself. -/
theorem C8_validate_ipv4_witness :
    ValidateIPv4 "192.168.1.1" = .ok () ∧ ValidateIPv4 "0.0.0.0" = .ok () := by
  constructor
  · exact (C8_validate_ipv4.1 "192.168.1.1").mpr
      ⟨192, 168, 1, 1, by omega, by omega, by omega, by omega, by decide⟩
  · exact (C8_validate_ipv4.1 "0.0.0.0").mpr
      ⟨0, 0, 0, 0, by omega, by omega, by omega, by omega, by decide⟩
